import Mathlib

set_option maxRecDepth 10000

namespace MetrolistCoverArt

/-! Shallow embedding of the native cover-art component
    (`app/src/main/cpp/coverart/coverart_jni.cpp`).

    Byte streams are modelled as `List Nat` (each element a byte value);
    stream positions and box sizes are naturals, with the 64-bit wrap of
    `AP4_Position` made explicit where the source increments a position. -/

/-- Big-endian value of a byte list, as read by `AP4_ByteStream::ReadUI32/ReadUI64`. -/
def beVal (bs : List Nat) : Nat := bs.foldl (fun acc b => acc * 256 + b) 0

/-- Read exactly `n` bytes at position `p`.  `AP4_ByteStream::Read` either fills the
    whole buffer or fails (`AP4_ERROR_EOS`); `none` models that failure. -/
def bytesAt (s : List Nat) (p n : Nat) : Option (List Nat) :=
  if p + n ≤ s.length then some ((s.drop p).take n) else none

/-- `ReadUI32` at position `p`: 4 bytes, big-endian. -/
def readUI32 (s : List Nat) (p : Nat) : Option Nat := (bytesAt s p 4).map beVal

/-- `ReadUI64` at position `p`: 8 bytes, big-endian. -/
def readUI64 (s : List Nat) (p : Nat) : Option Nat := (bytesAt s p 8).map beVal

/-- fourcc code of the movie box, `AP4_ATOM_TYPE_MOOV`. -/
def ATOM_MOOV : Nat := 0x6D6F6F76

/-- fourcc code of the title tag, `AP4_ATOM_TYPE_cNAM`. -/
def ATOM_cNAM : Nat := 0xA96E616D

/-- fourcc code of the artist tag, `AP4_ATOM_TYPE_cART`. -/
def ATOM_cART : Nat := 0xA9415254

/-- fourcc code of the album tag, `AP4_ATOM_TYPE_cALB`. -/
def ATOM_cALB : Nat := 0xA9616C62

/-- fourcc code of the year tag, `AP4_ATOM_TYPE_cDAY`. -/
def ATOM_cDAY : Nat := 0xA9646179

/-- fourcc code of the cover-art tag, `AP4_ATOM_TYPE_COVR`. -/
def ATOM_COVR : Nat := 0x636F7672

/-- fourcc code of the data atom, `AP4_ATOM_TYPE_DATA`. -/
def ATOM_DATA : Nat := 0x64617461

/-- One top-level scan record, the `AtomInfo {type, pos, size}` struct of the source. -/
structure AtomInfo where
  type : Nat
  pos : Nat
  size : Nat
deriving DecidableEq

/-- Modulus of the 64-bit `AP4_Position` arithmetic. -/
def U64MOD : Nat := 2 ^ 64

/-- One header read of the scan loop (cpp lines 100-111): 4-byte size field,
    4-byte type tag; size field 1 switches to the 8-byte extended size, size
    field 0 means the box runs to end of stream. -/
def readHeader (s : List Nat) (p : Nat) : Option (Nat × Nat) :=
  match readUI32 s p with
  | none => none
  | some sz4 =>
    match readUI32 s (p + 4) with
    | none => none
    | some t =>
      if sz4 = 1 then
        match readUI64 s (p + 8) with
        | none => none
        | some e => some (t, e)
      else if sz4 = 0 then some (t, s.length - p)
      else some (t, sz4)

/-- The scan loop of `embedMetadata` (cpp lines 97-121), fuel-indexed: `none`
    means the fuel ran out with the loop still running; `some` is the atom list
    accumulated when `pos` reaches the stream length or a header read fails. -/
def scanGo (s : List Nat) : Nat → Nat → List AtomInfo → Option (List AtomInfo)
  | 0, _, _ => none
  | fuel + 1, pos, acc =>
    if pos < s.length then
      match readHeader s pos with
      | none => some acc.reverse
      | some (t, sz) =>
          scanGo s fuel ((pos + sz) % U64MOD) ({ type := t, pos := pos, size := sz } :: acc)
    else some acc.reverse

/-- Top-level box scan of a stream, starting at offset 0. -/
def scanAtoms (fuel : Nat) (s : List Nat) : Option (List AtomInfo) := scanGo s fuel 0 []

/-- The scan loop terminates on stream `s`: some fuel suffices. -/
def scanTerminates (s : List Nat) : Prop := ∃ fuel, (scanAtoms fuel s).isSome

/-- The chunked raw-copy loop (cpp lines 230-240 and 314-320).  The buffer size
    is `bsz1 + 1` bytes.  Returns the bytes actually written to the output and
    whether every read succeeded; on a read failure the loop breaks, so the
    bytes of the failed and later chunks are missing (the source only logs the
    error and carries on with the next atom). -/
def copyGo (bsz1 : Nat) (s : List Nat) : Nat → Nat → Nat → List Nat × Bool
  | 0, _, _ => ([], true)
  | fuel + 1, pos, n =>
    match n with
    | 0 => ([], true)
    | m + 1 =>
      match bytesAt s pos (min (bsz1 + 1) (m + 1)) with
      | none => ([], false)
      | some chunk =>
        let r := copyGo bsz1 s fuel (pos + min (bsz1 + 1) (m + 1))
          (m + 1 - min (bsz1 + 1) (m + 1))
        (chunk ++ r.1, r.2)

/-- The copy of `n` bytes starting at `pos`: every chunk consumes at least one
    byte, so `n` loop iterations always suffice. -/
def copyLoop (bsz1 : Nat) (s : List Nat) (pos n : Nat) : List Nat × Bool :=
  copyGo bsz1 s n pos n

/-- Bytes the rewrite loop (cpp lines 220-243) emits for one scanned atom:
    the re-serialized edited moov bytes `mb` for a moov entry, otherwise the
    chunked raw copy (64 KiB buffer) of the atom's declared extent. -/
def rewriteSegment (mb input : List Nat) (a : AtomInfo) : List Nat :=
  if a.type = ATOM_MOOV then mb else (copyLoop 65535 input a.pos a.size).1

/-- Full output of the rewrite loop: the per-atom segments in scan order. -/
def rewriteOutput (mb input : List Nat) (atoms : List AtomInfo) : List Nat :=
  (atoms.map (rewriteSegment mb input)).flatten

/-- Declared length of an atom's output segment, and hence its position in the
    output: `mb.length` for the moov entry, the declared size otherwise. -/
def segLen (mb : List Nat) (a : AtomInfo) : Nat :=
  if a.type = ATOM_MOOV then mb.length else a.size

/-- Byte position of entry `i` of the box index inside the rewritten output. -/
def outPos (mb : List Nat) (atoms : List AtomInfo) (i : Nat) : Nat :=
  ((atoms.take i).map (segLen mb)).sum

/-- The `moovPos`/`moovSize` accumulation of the scan loop (cpp lines 115-118):
    the last scanned moov entry wins; `(0, 0)` when none was seen. -/
def moovFold (atoms : List AtomInfo) : Nat × Nat :=
  atoms.foldl (fun acc a => if a.type = ATOM_MOOV then (a.pos, a.size) else acc) (0, 0)

/-- `embedMetadata` (cpp lines 36-265) over the stream model.  The edited,
    re-serialized moov tree is passed in as the opaque byte list `mb` (its
    construction is the Bento4 serializer).  Result: `none` when the scan loop
    never terminates, otherwise the returned boolean paired with the output
    file's contents (`none` when the output path was never opened — the source
    opens the output only after the moov check). -/
def embedMetadata (fuel : Nat) (mb input : List Nat) : Option (Bool × Option (List Nat)) :=
  match scanAtoms fuel input with
  | none => none
  | some atoms =>
    if (moovFold atoms).2 = 0 then some (false, none)
    else some (true, some (rewriteOutput mb input atoms))

/-- Modelled from the spec: `AP4_File::GetMovie` (Bento4 library code, not in
    this repository) reports a movie exactly when the stream contains a
    top-level movie-metadata (`moov`) box. -/
def hasMovie (atoms : List AtomInfo) : Bool := atoms.any (fun a => a.type == ATOM_MOOV)

/-- `defragmentFile` (cpp lines 271-338) over the stream model.  The output
    stream is created (truncated) before the parse, so the output contents are
    always present (`some`): the full-file chunked copy (4 KiB buffer) when a
    movie-metadata box exists, the empty file otherwise.  `none` only when the
    parse of the input never terminates. -/
def defragmentFile (fuel : Nat) (input : List Nat) : Option (Bool × Option (List Nat)) :=
  match scanAtoms fuel input with
  | none => none
  | some atoms =>
    if hasMovie atoms then some (true, some (copyLoop 4095 input 0 input.length).1)
    else some (false, some [])

/-! The metadata item-list editor.  `addTextMetadata` and the cover-art block
    are cpp lines 15-27 and 181-204; the child-editing primitives they call
    (`AP4_ContainerAtom::DeleteChild`/`AddChild`, `AP4_DataAtom`) are Bento4
    library code, modelled from the spec (§4.2: delete removes the first
    matching immediate child and is a no-op if absent; add appends; a tag box
    is a one-child container holding a `data` box whose payload is a 4-byte
    type code, a 4-byte locale field, then the raw value bytes). -/

/-- Modelled from the spec: a box is a container with ordered children or a
    leaf with a raw payload. -/
inductive Box where
  | container : Nat → List Box → Box
  | leaf : Nat → List Nat → Box

/-- Type tag of a box. -/
def Box.type : Box → Nat
  | .container t _ => t
  | .leaf t _ => t

/-- Big-endian 4-byte encoding of a 32-bit value. -/
def be4 (n : Nat) : List Nat :=
  [n / 2 ^ 24 % 256, n / 2 ^ 16 % 256, n / 2 ^ 8 % 256, n % 256]

/-- Modelled from the spec: the `data` atom built by `AP4_DataAtom` — type
    code, locale/reserved field, raw value bytes. -/
def mkDataAtom (code : Nat) (val : List Nat) : Box :=
  .leaf ATOM_DATA (be4 code ++ be4 0 ++ val)

/-- A text tag box: one-child container holding a UTF-8 (`code 1`) data atom. -/
def mkTextTag (t : Nat) (bs : List Nat) : Box := .container t [mkDataAtom 1 bs]

/-- A cover-art tag box: `covr` container holding a data atom with the detected
    image type code. -/
def mkCoverTag (code : Nat) (a : List Nat) : Box := .container ATOM_COVR [mkDataAtom code a]

/-- Modelled from the spec: `AP4_ContainerAtom::DeleteChild(type)` removes the
    first immediate child of the given type; no-op if absent. -/
def deleteFirst (t : Nat) : List Box → List Box
  | [] => []
  | b :: bs => if b.type = t then bs else b :: deleteFirst t bs

/-- Delete-then-append shape shared by every tag upsert of the source. -/
def upsertBox (t : Nat) (b : Box) (l : List Box) : List Box := deleteFirst t l ++ [b]

/-- `addTextMetadata` (cpp lines 15-27): no-op when the text pointer is null or
    the string empty; otherwise delete the existing tag box of this type and
    append a fresh one.  Text is carried as its UTF-8 byte list. -/
def addTextMetadata (t : Nat) (text : Option (List Nat)) (l : List Box) : List Box :=
  match text with
  | none => l
  | some bs => if bs = [] then l else upsertBox t (mkTextTag t bs) l

/-- PNG magic number checked by the source (cpp lines 187-191). -/
def pngMagic : List Nat := [0x89, 0x50, 0x4E, 0x47]

/-- Image-type detection of the cover-art block (cpp lines 186-196): code 14
    (`TYPE_GIF`, the PNG-family code of this design) when the buffer has at
    least 8 bytes and starts with the PNG magic; code 13 (`TYPE_JPEG`)
    otherwise. -/
def detectImageType (a : List Nat) : Nat :=
  if 8 ≤ a.length ∧ a.take 4 = pngMagic then 14 else 13

/-- Cover-art upsert (cpp lines 181-204): skipped when no artwork bytes were
    passed; otherwise delete the existing `covr` box and append a fresh one
    carrying the detected type code and the raw image bytes. -/
def addCoverArt (art : Option (List Nat)) (l : List Box) : List Box :=
  match art with
  | none => l
  | some a => if a = [] then l else upsertBox ATOM_COVR (mkCoverTag (detectImageType a) a) l

/-- The full tag-update pass of `embedMetadata` (cpp lines 174-204) on the
    item list, in source order: title, artist, album, year, cover art. -/
def applyMetadata (title artist album year art : Option (List Nat)) (l : List Box) : List Box :=
  addCoverArt art
    (addTextMetadata ATOM_cDAY year
      (addTextMetadata ATOM_cALB album
        (addTextMetadata ATOM_cART artist
          (addTextMetadata ATOM_cNAM title l))))

/-- Number of immediate children of the item list with the given type tag. -/
def countType (t : Nat) (l : List Box) : Nat := (l.filter (fun b => b.type == t)).length

/-- First immediate child of the item list with the given type tag. -/
def findTag (t : Nat) (l : List Box) : Option Box := l.find? (fun b => b.type == t)

/-! Lemmas about the item-list editor. -/

theorem countType_nil (t : Nat) : countType t [] = 0 := rfl

theorem countType_cons (t : Nat) (b : Box) (l : List Box) :
    countType t (b :: l) = countType t l + (if b.type = t then 1 else 0) := by
  by_cases h : b.type = t <;> simp [countType, List.filter_cons, h]

theorem countType_append (t : Nat) (l m : List Box) :
    countType t (l ++ m) = countType t l + countType t m := by
  simp [countType, List.filter_append]

theorem countType_deleteFirst_self (t : Nat) (l : List Box) (h : countType t l ≤ 1) :
    countType t (deleteFirst t l) = 0 := by
  induction l with
  | nil => rfl
  | cons b bs ih =>
    rw [countType_cons] at h
    by_cases hb : b.type = t
    · simp [deleteFirst, hb]
      rw [hb] at h
      simp at h
      omega
    · simp only [deleteFirst, hb, if_neg hb, ite_false]
      rw [countType_cons]
      simp [hb]
      exact ih (by omega)

theorem countType_deleteFirst_ne (t u : Nat) (l : List Box) (hne : t ≠ u) :
    countType t (deleteFirst u l) = countType t l := by
  induction l with
  | nil => rfl
  | cons b bs ih =>
    by_cases hb : b.type = u
    · have hbt : ¬ b.type = t := by rw [hb]; exact Ne.symm hne
      show countType t (if b.type = u then bs else b :: deleteFirst u bs) = countType t (b :: bs)
      rw [if_pos hb, countType_cons, if_neg hbt]
      omega
    · show countType t (if b.type = u then bs else b :: deleteFirst u bs) = countType t (b :: bs)
      rw [if_neg hb, countType_cons, countType_cons, ih]

theorem findTag_cons (t : Nat) (b : Box) (l : List Box) :
    findTag t (b :: l) = if b.type = t then some b else findTag t l := by
  by_cases h : b.type = t
  · simp [findTag, List.find?, h]
  · have hb : (b.type == t) = false := by simp [h]
    simp [findTag, List.find?, hb, h]

theorem findTag_deleteFirst_ne (t u : Nat) (l : List Box) (hne : t ≠ u) :
    findTag t (deleteFirst u l) = findTag t l := by
  induction l with
  | nil => rfl
  | cons b bs ih =>
    by_cases hb : b.type = u
    · have hbt : ¬ b.type = t := by rw [hb]; exact Ne.symm hne
      show findTag t (if b.type = u then bs else b :: deleteFirst u bs) = findTag t (b :: bs)
      rw [if_pos hb, findTag_cons, if_neg hbt]
    · show findTag t (if b.type = u then bs else b :: deleteFirst u bs) = findTag t (b :: bs)
      rw [if_neg hb, findTag_cons, findTag_cons, ih]

theorem findTag_append (t : Nat) (l m : List Box) :
    findTag t (l ++ m) = (findTag t l).or (findTag t m) := by
  simp [findTag, List.find?_append]

theorem findTag_eq_none (t : Nat) (l : List Box) (h : countType t l = 0) :
    findTag t l = none := by
  induction l with
  | nil => rfl
  | cons b bs ih =>
    rw [countType_cons] at h
    by_cases hb : b.type = t
    · simp [hb] at h
    · rw [findTag_cons, if_neg hb]
      exact ih (by omega)

theorem upsertBox_self (t : Nat) (b : Box) (l : List Box) (hb : b.type = t)
    (h : countType t l ≤ 1) :
    countType t (upsertBox t b l) = 1 ∧ findTag t (upsertBox t b l) = some b := by
  have h0 : countType t (deleteFirst t l) = 0 := countType_deleteFirst_self t l h
  constructor
  · rw [upsertBox, countType_append, h0, countType_cons, countType_nil, if_pos hb]
  · rw [upsertBox, findTag_append, findTag_eq_none t _ h0, findTag_cons, if_pos hb]
    rfl

theorem upsertBox_other (t u : Nat) (b : Box) (l : List Box) (hne : t ≠ u) (hb : b.type = u) :
    countType t (upsertBox u b l) = countType t l ∧
    findTag t (upsertBox u b l) = findTag t l := by
  have hbt : ¬ b.type = t := by rw [hb]; exact fun hh => hne hh.symm
  constructor
  · rw [upsertBox, countType_append, countType_deleteFirst_ne t u l hne,
      countType_cons, countType_nil, if_neg hbt]
    omega
  · rw [upsertBox, findTag_append, findTag_deleteFirst_ne t u l hne, findTag_cons,
      if_neg hbt]
    cases findTag t l <;> rfl

theorem countType_addTextMetadata_ne (t u : Nat) (v : Option (List Nat)) (l : List Box)
    (hne : t ≠ u) : countType t (addTextMetadata u v l) = countType t l := by
  cases v with
  | none => rfl
  | some bs =>
    by_cases hbs : bs = []
    · simp [addTextMetadata, hbs]
    · simp only [addTextMetadata, if_neg hbs]
      exact (upsertBox_other t u (mkTextTag u bs) l hne rfl).1

theorem findTag_addTextMetadata_ne (t u : Nat) (v : Option (List Nat)) (l : List Box)
    (hne : t ≠ u) : findTag t (addTextMetadata u v l) = findTag t l := by
  cases v with
  | none => rfl
  | some bs =>
    by_cases hbs : bs = []
    · simp [addTextMetadata, hbs]
    · simp only [addTextMetadata, if_neg hbs]
      exact (upsertBox_other t u (mkTextTag u bs) l hne rfl).2

theorem countType_addCoverArt_ne (t : Nat) (v : Option (List Nat)) (l : List Box)
    (hne : t ≠ ATOM_COVR) : countType t (addCoverArt v l) = countType t l := by
  cases v with
  | none => rfl
  | some a =>
    by_cases ha : a = []
    · simp [addCoverArt, ha]
    · simp only [addCoverArt, if_neg ha]
      exact (upsertBox_other t ATOM_COVR (mkCoverTag (detectImageType a) a) l hne rfl).1

theorem findTag_addCoverArt_ne (t : Nat) (v : Option (List Nat)) (l : List Box)
    (hne : t ≠ ATOM_COVR) : findTag t (addCoverArt v l) = findTag t l := by
  cases v with
  | none => rfl
  | some a =>
    by_cases ha : a = []
    · simp [addCoverArt, ha]
    · simp only [addCoverArt, if_neg ha]
      exact (upsertBox_other t ATOM_COVR (mkCoverTag (detectImageType a) a) l hne rfl).2

theorem addTextMetadata_upsert (t : Nat) (bs : List Nat) (l : List Box) (hbs : bs ≠ [])
    (h : countType t l ≤ 1) :
    countType t (addTextMetadata t (some bs) l) = 1 ∧
    findTag t (addTextMetadata t (some bs) l) = some (mkTextTag t bs) := by
  simp only [addTextMetadata, if_neg hbs]
  exact upsertBox_self t (mkTextTag t bs) l rfl h

theorem addCoverArt_upsert (a : List Nat) (l : List Box) (ha : a ≠ [])
    (h : countType ATOM_COVR l ≤ 1) :
    countType ATOM_COVR (addCoverArt (some a) l) = 1 ∧
    findTag ATOM_COVR (addCoverArt (some a) l) = some (mkCoverTag (detectImageType a) a) := by
  simp only [addCoverArt, if_neg ha]
  exact upsertBox_self ATOM_COVR _ l rfl h

/-- The round-trip of claim C3: the same embed call applied twice, the second
    operating on the item list the first call produced. -/
def applyMetadataTwice (title artist album year art : Option (List Nat)) (l : List Box) : List Box :=
  applyMetadata title artist album year art (applyMetadata title artist album year art l)

theorem applyMetadata_nam (bs : List Nat) (artist album year art : Option (List Nat))
    (m : List Box) (hbs : bs ≠ []) (hm : countType ATOM_cNAM m ≤ 1) :
    countType ATOM_cNAM (applyMetadata (some bs) artist album year art m) = 1 ∧
    findTag ATOM_cNAM (applyMetadata (some bs) artist album year art m) =
      some (mkTextTag ATOM_cNAM bs) := by
  have h := addTextMetadata_upsert ATOM_cNAM bs m hbs hm
  unfold applyMetadata
  rw [countType_addCoverArt_ne ATOM_cNAM art _ (by decide),
      countType_addTextMetadata_ne ATOM_cNAM ATOM_cDAY year _ (by decide),
      countType_addTextMetadata_ne ATOM_cNAM ATOM_cALB album _ (by decide),
      countType_addTextMetadata_ne ATOM_cNAM ATOM_cART artist _ (by decide),
      findTag_addCoverArt_ne ATOM_cNAM art _ (by decide),
      findTag_addTextMetadata_ne ATOM_cNAM ATOM_cDAY year _ (by decide),
      findTag_addTextMetadata_ne ATOM_cNAM ATOM_cALB album _ (by decide),
      findTag_addTextMetadata_ne ATOM_cNAM ATOM_cART artist _ (by decide)]
  exact h

theorem applyMetadata_art (bs : List Nat) (title album year art : Option (List Nat))
    (m : List Box) (hbs : bs ≠ []) (hm : countType ATOM_cART m ≤ 1) :
    countType ATOM_cART (applyMetadata title (some bs) album year art m) = 1 ∧
    findTag ATOM_cART (applyMetadata title (some bs) album year art m) =
      some (mkTextTag ATOM_cART bs) := by
  have hm2 : countType ATOM_cART (addTextMetadata ATOM_cNAM title m) ≤ 1 := by
    rw [countType_addTextMetadata_ne ATOM_cART ATOM_cNAM title m (by decide)]; exact hm
  have h := addTextMetadata_upsert ATOM_cART bs (addTextMetadata ATOM_cNAM title m) hbs hm2
  unfold applyMetadata
  rw [countType_addCoverArt_ne ATOM_cART art _ (by decide),
      countType_addTextMetadata_ne ATOM_cART ATOM_cDAY year _ (by decide),
      countType_addTextMetadata_ne ATOM_cART ATOM_cALB album _ (by decide),
      findTag_addCoverArt_ne ATOM_cART art _ (by decide),
      findTag_addTextMetadata_ne ATOM_cART ATOM_cDAY year _ (by decide),
      findTag_addTextMetadata_ne ATOM_cART ATOM_cALB album _ (by decide)]
  exact h

theorem applyMetadata_alb (bs : List Nat) (title artist year art : Option (List Nat))
    (m : List Box) (hbs : bs ≠ []) (hm : countType ATOM_cALB m ≤ 1) :
    countType ATOM_cALB (applyMetadata title artist (some bs) year art m) = 1 ∧
    findTag ATOM_cALB (applyMetadata title artist (some bs) year art m) =
      some (mkTextTag ATOM_cALB bs) := by
  have hm2 : countType ATOM_cALB
      (addTextMetadata ATOM_cART artist (addTextMetadata ATOM_cNAM title m)) ≤ 1 := by
    rw [countType_addTextMetadata_ne ATOM_cALB ATOM_cART artist _ (by decide),
        countType_addTextMetadata_ne ATOM_cALB ATOM_cNAM title m (by decide)]
    exact hm
  have h := addTextMetadata_upsert ATOM_cALB bs
    (addTextMetadata ATOM_cART artist (addTextMetadata ATOM_cNAM title m)) hbs hm2
  unfold applyMetadata
  rw [countType_addCoverArt_ne ATOM_cALB art _ (by decide),
      countType_addTextMetadata_ne ATOM_cALB ATOM_cDAY year _ (by decide),
      findTag_addCoverArt_ne ATOM_cALB art _ (by decide),
      findTag_addTextMetadata_ne ATOM_cALB ATOM_cDAY year _ (by decide)]
  exact h

theorem applyMetadata_day (bs : List Nat) (title artist album art : Option (List Nat))
    (m : List Box) (hbs : bs ≠ []) (hm : countType ATOM_cDAY m ≤ 1) :
    countType ATOM_cDAY (applyMetadata title artist album (some bs) art m) = 1 ∧
    findTag ATOM_cDAY (applyMetadata title artist album (some bs) art m) =
      some (mkTextTag ATOM_cDAY bs) := by
  have hm2 : countType ATOM_cDAY
      (addTextMetadata ATOM_cALB album
        (addTextMetadata ATOM_cART artist (addTextMetadata ATOM_cNAM title m))) ≤ 1 := by
    rw [countType_addTextMetadata_ne ATOM_cDAY ATOM_cALB album _ (by decide),
        countType_addTextMetadata_ne ATOM_cDAY ATOM_cART artist _ (by decide),
        countType_addTextMetadata_ne ATOM_cDAY ATOM_cNAM title m (by decide)]
    exact hm
  have h := addTextMetadata_upsert ATOM_cDAY bs
    (addTextMetadata ATOM_cALB album
      (addTextMetadata ATOM_cART artist (addTextMetadata ATOM_cNAM title m))) hbs hm2
  unfold applyMetadata
  rw [countType_addCoverArt_ne ATOM_cDAY art _ (by decide),
      findTag_addCoverArt_ne ATOM_cDAY art _ (by decide)]
  exact h

theorem applyMetadata_covr (a : List Nat) (title artist album year : Option (List Nat))
    (m : List Box) (ha : a ≠ []) (hm : countType ATOM_COVR m ≤ 1) :
    countType ATOM_COVR (applyMetadata title artist album year (some a) m) = 1 ∧
    findTag ATOM_COVR (applyMetadata title artist album year (some a) m) =
      some (mkCoverTag (detectImageType a) a) := by
  have hm2 : countType ATOM_COVR
      (addTextMetadata ATOM_cDAY year
        (addTextMetadata ATOM_cALB album
          (addTextMetadata ATOM_cART artist (addTextMetadata ATOM_cNAM title m)))) ≤ 1 := by
    rw [countType_addTextMetadata_ne ATOM_COVR ATOM_cDAY year _ (by decide),
        countType_addTextMetadata_ne ATOM_COVR ATOM_cALB album _ (by decide),
        countType_addTextMetadata_ne ATOM_COVR ATOM_cART artist _ (by decide),
        countType_addTextMetadata_ne ATOM_COVR ATOM_cNAM title m (by decide)]
    exact hm
  exact addCoverArt_upsert a _ ha hm2

/-- C3 (amended): a tag upsert deletes only the first pre-existing tag box of
    its type before appending, so "at most one tag box per tag type" needs the
    item list to hold at most one box of that type already.  Under that
    precondition, applying the same embed call twice (the second reading the
    first call's item list) leaves exactly one tag box per provided tag type,
    holding the provided value. -/
theorem C3_upsert_roundtrip (title artist album year art : Option (List Nat)) (l : List Box)
    (h1 : countType ATOM_cNAM l ≤ 1) (h2 : countType ATOM_cART l ≤ 1)
    (h3 : countType ATOM_cALB l ≤ 1) (h4 : countType ATOM_cDAY l ≤ 1)
    (h5 : countType ATOM_COVR l ≤ 1) :
    (∀ bs, title = some bs → bs ≠ [] →
      countType ATOM_cNAM (applyMetadataTwice title artist album year art l) = 1 ∧
      findTag ATOM_cNAM (applyMetadataTwice title artist album year art l) =
        some (mkTextTag ATOM_cNAM bs)) ∧
    (∀ bs, artist = some bs → bs ≠ [] →
      countType ATOM_cART (applyMetadataTwice title artist album year art l) = 1 ∧
      findTag ATOM_cART (applyMetadataTwice title artist album year art l) =
        some (mkTextTag ATOM_cART bs)) ∧
    (∀ bs, album = some bs → bs ≠ [] →
      countType ATOM_cALB (applyMetadataTwice title artist album year art l) = 1 ∧
      findTag ATOM_cALB (applyMetadataTwice title artist album year art l) =
        some (mkTextTag ATOM_cALB bs)) ∧
    (∀ bs, year = some bs → bs ≠ [] →
      countType ATOM_cDAY (applyMetadataTwice title artist album year art l) = 1 ∧
      findTag ATOM_cDAY (applyMetadataTwice title artist album year art l) =
        some (mkTextTag ATOM_cDAY bs)) ∧
    (∀ a, art = some a → a ≠ [] →
      countType ATOM_COVR (applyMetadataTwice title artist album year art l) = 1 ∧
      findTag ATOM_COVR (applyMetadataTwice title artist album year art l) =
        some (mkCoverTag (detectImageType a) a)) := by
  refine ⟨?_, ?_, ?_, ?_, ?_⟩
  · intro bs heq hbs
    subst heq
    have p1 := applyMetadata_nam bs artist album year art l hbs h1
    exact applyMetadata_nam bs artist album year art _ hbs p1.1.le
  · intro bs heq hbs
    subst heq
    have p1 := applyMetadata_art bs title album year art l hbs h2
    exact applyMetadata_art bs title album year art _ hbs p1.1.le
  · intro bs heq hbs
    subst heq
    have p1 := applyMetadata_alb bs title artist year art l hbs h3
    exact applyMetadata_alb bs title artist year art _ hbs p1.1.le
  · intro bs heq hbs
    subst heq
    have p1 := applyMetadata_day bs title artist album art l hbs h4
    exact applyMetadata_day bs title artist album art _ hbs p1.1.le
  · intro a heq ha
    subst heq
    have p1 := applyMetadata_covr a title artist album year l ha h5
    exact applyMetadata_covr a title artist album year _ ha p1.1.le

/-- C3 witness: the round-trip theorem applied to an empty item list and five
    concrete tag values. -/
theorem C3_upsert_roundtrip_witness :
    countType ATOM_cNAM (applyMetadataTwice (some [97]) (some [98]) (some [99]) (some [100])
      (some [1, 2, 3]) []) = 1 ∧
    findTag ATOM_cNAM (applyMetadataTwice (some [97]) (some [98]) (some [99]) (some [100])
      (some [1, 2, 3]) []) = some (mkTextTag ATOM_cNAM [97]) :=
  (C3_upsert_roundtrip (some [97]) (some [98]) (some [99]) (some [100]) (some [1, 2, 3]) []
    (by decide) (by decide) (by decide) (by decide) (by decide)).1 [97] rfl (by decide)

/-- C3 counterexample: on an item list that already holds two title tag boxes,
    the upsert deletes only the first one, so two title boxes survive — the
    claimed "at most one tag box per tag type survives" fails. -/
theorem C3_counterexample :
    countType ATOM_cNAM (addTextMetadata ATOM_cNAM (some [99])
      [mkTextTag ATOM_cNAM [97], mkTextTag ATOM_cNAM [98]]) = 2 ∧
    ¬ countType ATOM_cNAM (addTextMetadata ATOM_cNAM (some [99])
      [mkTextTag ATOM_cNAM [97], mkTextTag ATOM_cNAM [98]]) ≤ 1 := by
  constructor <;> decide

/-- C5 (amended): with all text fields absent and no artwork the update is the
    identity on the item list; an explicit empty string (and empty artwork) is
    also a no-op — `addTextMetadata` returns before deleting, so the
    pre-existing tag box is left untouched rather than removed. -/
theorem C5_absent_and_empty_no_op (l : List Box) (t : Nat) :
    applyMetadata none none none none none l = l ∧
    addTextMetadata t (some []) l = l ∧
    addCoverArt (some []) l = l :=
  ⟨rfl, rfl, rfl⟩

/-- C5 counterexample: passing an explicit empty string for the title does not
    remove the pre-existing title tag box — the claim says that tag box, and
    only it, is removed. -/
theorem C5_counterexample :
    addTextMetadata ATOM_cNAM (some []) [mkTextTag ATOM_cNAM [104]] =
      [mkTextTag ATOM_cNAM [104]] ∧
    countType ATOM_cNAM
      (addTextMetadata ATOM_cNAM (some []) [mkTextTag ATOM_cNAM [104]]) = 1 :=
  ⟨rfl, rfl⟩

/-- C6 (amended): the stored data box carries the PNG-family code 14 exactly
    when the artwork has at least 8 bytes AND its first 4 bytes are the PNG
    magic; every other non-empty buffer (including a 4-to-7-byte buffer that
    does start with the PNG magic, and any JPEG SOI buffer) gets code 13. -/
theorem C6_cover_type_detection (a : List Nat) (l : List Box) (ha : a ≠ []) :
    (detectImageType a = 14 ↔ 8 ≤ a.length ∧ a.take 4 = pngMagic) ∧
    (detectImageType a = 13 ↔ ¬ (8 ≤ a.length ∧ a.take 4 = pngMagic)) ∧
    addCoverArt (some a) l = upsertBox ATOM_COVR (mkCoverTag (detectImageType a) a) l := by
  refine ⟨?_, ?_, ?_⟩
  · by_cases h : 8 ≤ a.length ∧ a.take 4 = pngMagic <;> simp [detectImageType, h]
  · by_cases h : 8 ≤ a.length ∧ a.take 4 = pngMagic <;> simp [detectImageType, h]
  · simp [addCoverArt, ha]

/-- C6 witness: a JPEG SOI buffer is classified with the JPEG code 13. -/
theorem C6_cover_type_detection_witness :
    (detectImageType [0xFF, 0xD8, 0xFF, 0xE0] = 14 ↔
      8 ≤ [0xFF, 0xD8, 0xFF, 0xE0].length ∧ [0xFF, 0xD8, 0xFF, 0xE0].take 4 = pngMagic) ∧
    (detectImageType [0xFF, 0xD8, 0xFF, 0xE0] = 13 ↔
      ¬ (8 ≤ [0xFF, 0xD8, 0xFF, 0xE0].length ∧ [0xFF, 0xD8, 0xFF, 0xE0].take 4 = pngMagic)) ∧
    addCoverArt (some [0xFF, 0xD8, 0xFF, 0xE0]) [] =
      upsertBox ATOM_COVR
        (mkCoverTag (detectImageType [0xFF, 0xD8, 0xFF, 0xE0]) [0xFF, 0xD8, 0xFF, 0xE0]) [] :=
  C6_cover_type_detection [0xFF, 0xD8, 0xFF, 0xE0] [] (by decide)

/-- C6 counterexample: a 4-byte buffer that IS exactly the PNG magic is
    classified as JPEG (code 13), because the source requires at least 8 bytes
    before it even looks at the magic — the claimed "PNG-family exactly when
    the first 4 bytes are the magic" fails. -/
theorem C6_counterexample :
    [0x89, 0x50, 0x4E, 0x47].take 4 = pngMagic ∧
    detectImageType [0x89, 0x50, 0x4E, 0x47] ≠ 14 ∧
    detectImageType [0x89, 0x50, 0x4E, 0x47] = 13 := by
  refine ⟨by decide, by decide, by decide⟩

/-! Concrete example streams used by witnesses and counterexamples. -/

/-- Example stream: a single 8-byte moov box. -/
def exMoovOnly : List Nat := [0, 0, 0, 8, 0x6D, 0x6F, 0x6F, 0x76]

/-- Example stream: an 8-byte moov box followed by an 8-byte free box. -/
def exMoovFree : List Nat :=
  [0, 0, 0, 8, 0x6D, 0x6F, 0x6F, 0x76, 0, 0, 0, 8, 0x66, 0x72, 0x65, 0x65]

/-- Example stream: a moov box followed by a free box declaring 16 bytes while
    only its 8 header bytes are present — the raw copy of the free box hits a
    read failure. -/
def exTrunc : List Nat :=
  [0, 0, 0, 8, 0x6D, 0x6F, 0x6F, 0x76, 0, 0, 0, 16, 0x66, 0x72, 0x65, 0x65]

/-- Example stream: a single free box, no moov anywhere. -/
def exNoMoov : List Nat := [0, 0, 0, 8, 0x66, 0x72, 0x65, 0x65]

/-- Example stream: size field 1 with 64-bit extended size 5000000000. -/
def exExtBig : List Nat :=
  [0, 0, 0, 1, 0x66, 0x72, 0x65, 0x65, 0, 0, 0, 1, 0x2A, 0x05, 0xF2, 0x00]

/-- Example stream: size field 1 with 64-bit extended size 0 — the scan offset
    never advances past 0. -/
def exExtZero : List Nat :=
  [0, 0, 0, 1, 0x66, 0x72, 0x65, 0x65, 0, 0, 0, 0, 0, 0, 0, 0]

/-- Stand-in for the serialized edited moov tree in concrete runs. -/
def exMoovBytes : List Nat := [0, 0, 0, 8, 0x6D, 0x6F, 0x6F, 0x76]

/-! Lemmas about the scanner, the moov accumulator and the copy loop. -/

theorem foldl_no_moov :
    ∀ (atoms : List AtomInfo) (init : Nat × Nat),
      (∀ a ∈ atoms, a.type ≠ ATOM_MOOV) →
      atoms.foldl (fun acc a => if a.type = ATOM_MOOV then (a.pos, a.size) else acc) init =
        init := by
  intro atoms
  induction atoms with
  | nil => intro init h; rfl
  | cons a as ih =>
    intro init h
    rw [List.foldl_cons, if_neg (h a (by simp))]
    exact ih init (fun b hb => h b (by simp [hb]))

theorem moovFold_no_moov (atoms : List AtomInfo) (h : ∀ a ∈ atoms, a.type ≠ ATOM_MOOV) :
    moovFold atoms = (0, 0) := by
  unfold moovFold
  exact foldl_no_moov atoms (0, 0) h

theorem copyGo_of_le (bsz1 : Nat) (s : List Nat) :
    ∀ fuel n pos, n ≤ fuel → pos + n ≤ s.length →
      copyGo bsz1 s fuel pos n = ((s.drop pos).take n, true) := by
  intro fuel
  induction fuel with
  | zero =>
    intro n pos hf hle
    have : n = 0 := by omega
    subst this
    simp [copyGo]
  | succ f ih =>
    intro n pos hf hle
    match n with
    | 0 => simp [copyGo]
    | Nat.succ m =>
      have hk1 : 1 ≤ min (bsz1 + 1) (m + 1) := by omega
      have hkle : min (bsz1 + 1) (m + 1) ≤ m + 1 := by omega
      have hb : bytesAt s pos (min (bsz1 + 1) (m + 1)) =
          some ((s.drop pos).take (min (bsz1 + 1) (m + 1))) := by
        unfold bytesAt
        rw [if_pos (by omega)]
      have hrec := ih (m + 1 - min (bsz1 + 1) (m + 1)) (pos + min (bsz1 + 1) (m + 1))
        (by omega) (by omega)
      rw [copyGo, hb]
      show ((s.drop pos).take (min (bsz1 + 1) (m + 1)) ++
          (copyGo bsz1 s f (pos + min (bsz1 + 1) (m + 1))
            (m + 1 - min (bsz1 + 1) (m + 1))).1,
          (copyGo bsz1 s f (pos + min (bsz1 + 1) (m + 1))
            (m + 1 - min (bsz1 + 1) (m + 1))).2) = ((s.drop pos).take (m + 1), true)
      rw [hrec]
      have hdd : s.drop (pos + min (bsz1 + 1) (m + 1)) =
          (s.drop pos).drop (min (bsz1 + 1) (m + 1)) := by
        rw [List.drop_drop]
      show ((s.drop pos).take (min (bsz1 + 1) (m + 1)) ++
          (s.drop (pos + min (bsz1 + 1) (m + 1))).take (m + 1 - min (bsz1 + 1) (m + 1)),
          true) = ((s.drop pos).take (m + 1), true)
      rw [hdd, ← List.take_add]
      congr 2
      omega

theorem copyLoop_of_le (bsz1 : Nat) (s : List Nat) :
    ∀ n pos, pos + n ≤ s.length → copyLoop bsz1 s pos n = ((s.drop pos).take n, true) := by
  intro n pos hle
  exact copyGo_of_le bsz1 s n n pos (by omega) hle

/-- C2: header size decoding of the top-level scanner: a size field of 1 takes
    the 8-byte big-endian extended size read right after the type tag; a size
    field of 0 takes stream length minus the current offset; any other value is
    the recorded size itself. -/
theorem C2_header_size_decoding (s : List Nat) (p t e n : Nat) :
    (readUI32 s p = some 1 → readUI32 s (p + 4) = some t → readUI64 s (p + 8) = some e →
      readHeader s p = some (t, e)) ∧
    (readUI32 s p = some 0 → readUI32 s (p + 4) = some t →
      readHeader s p = some (t, s.length - p)) ∧
    (readUI32 s p = some n → 2 ≤ n → readUI32 s (p + 4) = some t →
      readHeader s p = some (t, n)) := by
  refine ⟨?_, ?_, ?_⟩
  · intro h1 h2 h3
    simp [readHeader, h1, h2, h3]
  · intro h1 h2
    simp [readHeader, h1, h2]
  · intro h1 hn h2
    have hne1 : ¬ n = 1 := by omega
    have hne0 : ¬ n = 0 := by omega
    simp [readHeader, h1, h2, hne1, hne0]

/-- C2 witness: a synthetic box with size field 1 and 8-byte extended size
    5000000000 is scanned with size 5000000000. -/
theorem C2_header_size_decoding_witness :
    readHeader exExtBig 0 = some (0x66726565, 5000000000) :=
  (C2_header_size_decoding exExtBig 0 0x66726565 5000000000 0).1
    (by decide) (by decide) (by decide)

/-- C7: when the top-level scan records no moov box, embedMetadata returns
    failure (false) and never opens the output path. -/
theorem C7_missing_moov_fails (fuel : Nat) (mb input : List Nat) (atoms : List AtomInfo)
    (hscan : scanAtoms fuel input = some atoms)
    (hno : ∀ a ∈ atoms, a.type ≠ ATOM_MOOV) :
    embedMetadata fuel mb input = some (false, none) := by
  unfold embedMetadata
  rw [hscan]
  simp [moovFold_no_moov atoms hno]

/-- C7 witness: a moov-less single-box stream makes embedMetadata fail. -/
theorem C7_missing_moov_fails_witness :
    embedMetadata 2 [] exNoMoov = some (false, none) :=
  C7_missing_moov_fails 2 [] exNoMoov [⟨0x66726565, 0, 8⟩] (by decide) (by decide)

/-- C10: defragment creates (truncates) the output before parsing the input, so
    when it fails for lack of a moov box it leaves an empty output file behind —
    failure is not atomic with respect to the output path. -/
theorem C10_defrag_failure_output (fuel : Nat) (input : List Nat) (atoms : List AtomInfo)
    (hscan : scanAtoms fuel input = some atoms)
    (hno : hasMovie atoms = false) :
    defragmentFile fuel input = some (false, some []) := by
  unfold defragmentFile
  rw [hscan]
  simp [hno]

/-- C10 witness: the moov-less stream leaves an empty output file. -/
theorem C10_defrag_failure_output_witness :
    defragmentFile 2 exNoMoov = some (false, some []) :=
  C10_defrag_failure_output 2 exNoMoov [⟨0x66726565, 0, 8⟩] (by decide) (by decide)

/-- C8: defragment copies the input byte-identically and returns success when
    the input contains a movie-metadata box; it returns failure when none
    exists. -/
theorem C8_defrag_contract (fuel : Nat) (input : List Nat) (atoms : List AtomInfo)
    (hscan : scanAtoms fuel input = some atoms) :
    (hasMovie atoms = true → defragmentFile fuel input = some (true, some input)) ∧
    (hasMovie atoms = false → defragmentFile fuel input = some (false, some [])) := by
  constructor
  · intro hm
    unfold defragmentFile
    rw [hscan]
    rw [copyLoop_of_le 4095 input input.length 0 (by omega)]
    simp [hm]
  · intro hm
    unfold defragmentFile
    rw [hscan]
    simp [hm]

/-- C8 witness: a stream holding a moov box is copied byte-identically. -/
theorem C8_defrag_contract_witness :
    defragmentFile 2 exMoovOnly = some (true, some exMoovOnly) :=
  (C8_defrag_contract 2 exMoovOnly [⟨ATOM_MOOV, 0, 8⟩] (by decide)).1 (by decide)

/-- C4: on the truncated stream the raw-copy of the free box hits a read
    failure, yet embedMetadata still reports success (true), because the
    source's break leaves only the inner chunk loop and `success = true` runs
    unconditionally afterwards.  The claim (and the spec) say the whole
    operation aborts and returns false. -/
theorem C4_read_failure_returns_true :
    (copyLoop 65535 exTrunc 8 16).2 = false ∧
    embedMetadata 3 exMoovBytes exTrunc = some (true, some exMoovBytes) := by
  constructor
  · decide
  · decide

/-! Claim C9: termination of the top-level scan loop. -/

/-- Every header a scan of `s` could read yields a positive recorded size and a
    non-wrapping next offset.  Decidable, so concrete streams are checked by
    evaluation. -/
def goodHeaders (s : List Nat) : Bool :=
  (List.range s.length).all fun p =>
    match readHeader s p with
    | none => true
    | some q => decide (0 < q.2) && decide (p + q.2 < U64MOD)

theorem scanGo_terminates (s : List Nat) (hgood : goodHeaders s = true) :
    ∀ fuel pos acc, s.length - pos < fuel → (scanGo s fuel pos acc).isSome = true := by
  intro fuel
  induction fuel with
  | zero => intro pos acc h0; omega
  | succ f ih =>
    intro pos acc hlt
    by_cases hp : pos < s.length
    · simp only [scanGo]
      rw [if_pos hp]
      cases hh : readHeader s pos with
      | none => simp
      | some q =>
        obtain ⟨t, sz⟩ := q
        have hmem : pos ∈ List.range s.length := List.mem_range.mpr hp
        have hx := List.all_eq_true.mp hgood pos hmem
        rw [hh] at hx
        simp at hx
        have hmod : (pos + sz) % U64MOD = pos + sz := Nat.mod_eq_of_lt hx.2
        show (scanGo s f ((pos + sz) % U64MOD)
          ({ type := t, pos := pos, size := sz } :: acc)).isSome = true
        rw [hmod]
        exact ih (pos + sz) _ (by omega)
    · simp only [scanGo]
      rw [if_neg hp]
      rfl

/-- C9 (amended): the top-level scan loop terminates on every finite stream in
    which every readable box header records a positive size and a non-wrapping
    next offset; a stream-length fuel bound suffices.  (Without that proviso
    the loop can spin forever: see the counterexample, where an extended size
    of 0 never advances the offset.) -/
theorem C9_scan_termination (s : List Nat) (hgood : goodHeaders s = true) :
    scanTerminates s :=
  ⟨s.length + 1, scanGo_terminates s hgood (s.length + 1) 0 [] (by omega)⟩

/-- C9 witness: the scan of a small two-box stream terminates. -/
theorem C9_scan_termination_witness : scanTerminates exMoovFree :=
  C9_scan_termination exMoovFree (by decide)

/-- C9 counterexample: a stream whose first box has size field 1 and 64-bit
    extended size 0 keeps the scan offset at 0 forever, so no amount of fuel
    completes the loop — the claim that the scan terminates on every finite
    stream fails. -/
theorem C9_counterexample : ¬ scanTerminates exExtZero := by
  intro hterm
  obtain ⟨fuel, h⟩ := hterm
  have key : ∀ f acc, scanGo exExtZero f 0 acc = none := by
    intro f
    induction f with
    | zero => intro acc; rfl
    | succ f ih =>
      intro acc
      exact ih ({ type := 0x66726565, pos := 0, size := 0 } :: acc)
  rw [show scanAtoms fuel exExtZero = none from key fuel []] at h
  simp at h

/-! Claim C1: the rewrite loop reproduces every non-moov box byte-for-byte at
    its position in box order. -/

theorem flatten_extract (ls : List (List Nat)) :
    ∀ i (h : i < ls.length),
      (ls.flatten.drop (((ls.take i).map List.length).sum)).take (ls.get ⟨i, h⟩).length =
        ls.get ⟨i, h⟩ := by
  induction ls with
  | nil => intro i h; simp at h
  | cons a ls ih =>
    intro i h
    match i with
    | 0 =>
      simp only [List.take_zero, List.map_nil, List.sum_nil, List.drop_zero,
        List.flatten_cons, List.get]
      exact List.take_left a ls.flatten
    | Nat.succ j =>
      have hj : j < ls.length := by simpa using h
      simp only [List.take_succ_cons, List.map_cons, List.sum_cons, List.flatten_cons,
        List.get]
      have hdrop : (a ++ ls.flatten).drop
          (a.length + ((ls.take j).map List.length).sum) =
          ls.flatten.drop (((ls.take j).map List.length).sum) := by
        rw [← List.drop_drop, List.drop_left]
      rw [hdrop]
      exact ih j hj

theorem rewriteSegment_spec (mb input : List Nat) (a : AtomInfo)
    (hin : a.pos + a.size ≤ input.length) :
    rewriteSegment mb input a =
      (if a.type = ATOM_MOOV then mb else (input.drop a.pos).take a.size) := by
  unfold rewriteSegment
  by_cases hm : a.type = ATOM_MOOV
  · simp [hm]
  · simp only [if_neg hm]
    rw [copyLoop_of_le 65535 input a.size a.pos hin]

theorem rewriteSegment_length (mb input : List Nat) (a : AtomInfo)
    (hin : a.pos + a.size ≤ input.length) :
    (rewriteSegment mb input a).length = segLen mb a := by
  rw [rewriteSegment_spec mb input a hin]
  unfold segLen
  by_cases hm : a.type = ATOM_MOOV
  · simp [hm]
  · simp only [if_neg hm, List.length_take, List.length_drop]
    omega

/-- C1 (amended): provided every scanned entry's declared extent lies inside
    the input stream (so the chunked reads all succeed), the rewriter's output
    contains, at each entry's position in box order, exactly the input's bytes
    at that entry's offset for its declared size when the entry is not the
    moov, and the replacement moov bytes when it is — the output differs from
    the input only at the moov box.  (Without the proviso a truncated trailing
    box is silently dropped: see the counterexample.) -/
theorem C1_rewrite_preserves_nonmoov (mb input : List Nat) (fuel : Nat)
    (atoms : List AtomInfo) (_hscan : scanAtoms fuel input = some atoms)
    (hin : ∀ a ∈ atoms, a.pos + a.size ≤ input.length)
    (i : Nat) (hi : i < atoms.length) :
    ((rewriteOutput mb input atoms).drop (outPos mb atoms i)).take
        (segLen mb (atoms.get ⟨i, hi⟩)) =
      (if (atoms.get ⟨i, hi⟩).type = ATOM_MOOV then mb
       else (input.drop ((atoms.get ⟨i, hi⟩)).pos).take ((atoms.get ⟨i, hi⟩)).size) := by
  unfold rewriteOutput outPos
  have hml : i < (atoms.map (rewriteSegment mb input)).length := by simpa using hi
  have hflat := flatten_extract (atoms.map (rewriteSegment mb input)) i hml
  have htake : (atoms.map (rewriteSegment mb input)).take i =
      (atoms.take i).map (rewriteSegment mb input) := by
    rw [List.map_take]
  have hsum : (((atoms.map (rewriteSegment mb input)).take i).map List.length).sum =
      ((atoms.take i).map (segLen mb)).sum := by
    rw [htake, List.map_map]
    apply congrArg
    apply List.map_congr_left
    intro a ha
    exact rewriteSegment_length mb input a (hin a (List.mem_of_mem_take ha))
  have hget : (atoms.map (rewriteSegment mb input)).get ⟨i, hml⟩ =
      rewriteSegment mb input (atoms.get ⟨i, hi⟩) := by
    simp
  have hlen : (rewriteSegment mb input (atoms.get ⟨i, hi⟩)).length =
      segLen mb (atoms.get ⟨i, hi⟩) :=
    rewriteSegment_length mb input _ (hin _ (atoms.get_mem i hi))
  rw [← hsum, ← hlen, ← hget, hflat, hget,
    rewriteSegment_spec mb input _ (hin _ (atoms.get_mem i hi))]

/-- C1 witness: in a well-formed moov+free stream, the free box's bytes appear
    unchanged at its box-order position of the rewritten output. -/
theorem C1_rewrite_preserves_nonmoov_witness :
    ((rewriteOutput exMoovBytes exMoovFree [⟨ATOM_MOOV, 0, 8⟩, ⟨0x66726565, 8, 8⟩]).drop
        (outPos exMoovBytes [⟨ATOM_MOOV, 0, 8⟩, ⟨0x66726565, 8, 8⟩] 1)).take
      (segLen exMoovBytes
        (([⟨ATOM_MOOV, 0, 8⟩, ⟨0x66726565, 8, 8⟩] : List AtomInfo).get ⟨1, by decide⟩)) =
      (exMoovFree.drop 8).take 8 := by
  have h := C1_rewrite_preserves_nonmoov exMoovBytes exMoovFree 3
    [⟨ATOM_MOOV, 0, 8⟩, ⟨0x66726565, 8, 8⟩] (by decide) (by decide) 1 (by decide)
  exact h.trans (by decide)

/-- C1 counterexample: the scan happily records a trailing box whose declared
    size runs past end-of-stream; for that (non-moov) entry the rewriter's
    output does NOT contain the input's bytes at the entry's position — the
    read fails and the box is silently dropped, so the claim as stated (for
    every input file and every non-moov entry) fails. -/
theorem C1_counterexample :
    scanAtoms 3 exTrunc = some [⟨ATOM_MOOV, 0, 8⟩, ⟨0x66726565, 8, 16⟩] ∧
    (0x66726565 : Nat) ≠ ATOM_MOOV ∧
    ((rewriteOutput exMoovBytes exTrunc [⟨ATOM_MOOV, 0, 8⟩, ⟨0x66726565, 8, 16⟩]).drop
        (outPos exMoovBytes [⟨ATOM_MOOV, 0, 8⟩, ⟨0x66726565, 8, 16⟩] 1)).take 16 ≠
      (exTrunc.drop 8).take 16 := by
  refine ⟨by decide, by decide, by decide⟩

end MetrolistCoverArt
